import Mathlib

/-!
Verification of the rental subsystem of the Movie-Rental-System repository
(`src/models/rental_model.py`), against its natural-language specification.

The embedding is a sequential model of the MySQL-backed operations:
the database is an explicit `DBState` record of association lists
(primary key to row), each model method becomes a pure function from a
`DBState` (plus the injected clock value `today`, standing for
`datetime.now().date()`) to a result and a new `DBState`.  The successful
SQL paths are translated statement by statement; connection failures and
other `mysql.connector.Error` paths (which roll back and leave the state
unchanged) are not modelled.  DECIMAL currency amounts are modelled in
cents (`Int`), so 2.99 is 299 and the default late fee of 2.00 per day is
200; dates are day numbers (`Int`), matching Python date subtraction
yielding whole days.
-/

namespace MovieRental


/-- Day number of a Gregorian calendar date (days since 1970-01-01),
used to evaluate the concrete dates appearing in the specification
(e.g. 2024-01-10).  Standard civil-from-days algorithm. -/
def days_from_civil (y m d : Int) : Int :=
  let y' := if m ≤ 2 then y - 1 else y
  let era := (if 0 ≤ y' then y' else y' - 399) / 400
  let yoe := y' - era * 400
  let mp := (m + 9) % 12
  let doy := (153 * mp + 2) / 5 + d - 1
  let doe := yoe * 365 + yoe / 4 - yoe / 100 + doy
  era * 146097 + doe - 719468

/-- A row of the `customers` table, restricted to the column the rental
subsystem reads (`is_active`). -/
structure Customer where
  is_active : Bool
deriving Repr, DecidableEq

/-- A row of the `movies` table, restricted to the columns the rental
subsystem reads and writes.  `rental_rate` is in cents. -/
structure Movie where
  title : String
  rental_rate : Int
  stock_quantity : Int
  total_copies : Int
  is_available : Bool
deriving Repr, DecidableEq

/-- The `rental_status` ENUM of the `rentals` table. -/
inductive RentalStatus
  | active
  | returned
  | overdue
deriving Repr, DecidableEq

/-- A row of the `rentals` table.  `total_charge` and `late_fee` are in
cents; `rental_date` is the creation date (the schema default
CURRENT_TIMESTAMP, i.e. `today` at insertion time). -/
structure Rental where
  customer_id : Nat
  movie_id : Nat
  employee_id : Nat
  rental_date : Int
  due_date : Int
  actual_return_date : Option Int
  total_charge : Int
  late_fee : Int
  rental_status : RentalStatus
deriving Repr, DecidableEq

/-- A row of the `returns` table. -/
structure ReturnRow where
  rental_id : Nat
  return_date : Int
  late_days : Int
  late_fee : Int
  total_paid : Int
  processed_by : Nat
deriving Repr, DecidableEq

/-- The database state seen by the rental subsystem.  Tables are
association lists from primary key to row; `employees` only ever
appears on the right of joins, so just its key set is kept.
`next_rental_id` models the AUTO_INCREMENT counter of `rentals`. -/
structure DBState where
  customers : List (Nat × Customer)
  employees : List Nat
  movies : List (Nat × Movie)
  rentals : List (Nat × Rental)
  returns : List ReturnRow
  next_rental_id : Nat
deriving Repr, DecidableEq

/-- `SELECT ... WHERE key = k` on an association list: the first row
with the given primary key. -/
def findRow {α : Type} (k : Nat) : List (Nat × α) → Option α
  | [] => none
  | (k', v) :: rest => if k' = k then some v else findRow k rest

/-- `UPDATE ... WHERE key = k` on an association list: replace every row
whose primary key is `k` (for a primary key there is at most one). -/
def updRow {α : Type} (k : Nat) (v : α) (l : List (Nat × α)) : List (Nat × α) :=
  l.map fun p => if p.1 = k then (k, v) else p

/-- `self.late_fee_per_day = 2.00` from `RentalModel.__init__`, in cents. -/
def late_fee_per_day : Int := 200

/-- Result of `RentalModel.rent_movie`, one constructor per returned
message; `ok` carries the new rental id and the charge (the source
returns them inside the success message and as `rental_id`). -/
inductive RentResult
  | customerNotFound
  | customerInactive
  | movieNotFound
  | movieUnavailable
  | invalidDueDate
  | ok (rental_id : Nat) (total_charge : Int)
deriving Repr, DecidableEq

/-- The success flag of a `RentResult` (first component of the Python
return tuple). -/
def RentResult.isOk : RentResult → Bool
  | .ok _ _ => true
  | _ => false

/-- The rental row inserted by `rent_movie`: explicit columns from the
INSERT, remaining columns from the schema defaults
(`rental_date` CURRENT_TIMESTAMP, `late_fee` 0, `rental_status` active,
`actual_return_date` NULL). -/
def mkRental (customer_id movie_id employee_id : Nat)
    (rental_date due_date : Int) (total_charge : Int) : Rental :=
  { customer_id := customer_id, movie_id := movie_id, employee_id := employee_id,
    rental_date := rental_date, due_date := due_date, actual_return_date := none,
    total_charge := total_charge, late_fee := 0, rental_status := .active }

/-- `RentalModel.rent_movie` (src/models/rental_model.py, lines 30-123),
on the non-error-path: check customer exists and is active, check movie
exists, check availability, check due date, then atomically insert the
rental row and decrement the stock.  `today` is `datetime.now().date()`. -/
def rent_movie (s : DBState) (customer_id movie_id employee_id : Nat)
    (due_date today : Int) : RentResult × DBState :=
  match findRow customer_id s.customers with
  | none => (.customerNotFound, s)
  | some c =>
    if c.is_active = false then (.customerInactive, s)
    else
      match findRow movie_id s.movies with
      | none => (.movieNotFound, s)
      | some m =>
        if m.is_available = false ∨ m.stock_quantity ≤ 0 then (.movieUnavailable, s)
        else
          let rental_date := today
          let rental_days := due_date - rental_date
          if rental_days ≤ 0 then (.invalidDueDate, s)
          else
            let total_charge := m.rental_rate * rental_days
            let rental_id := s.next_rental_id
            let new_stock := m.stock_quantity - 1
            let m' := { m with stock_quantity := new_stock,
                               is_available := decide (0 < new_stock) }
            (.ok rental_id total_charge,
             { s with
                rentals := s.rentals ++
                  [(rental_id, mkRental customer_id movie_id employee_id rental_date due_date total_charge)],
                movies := updRow movie_id m' s.movies,
                next_rental_id := rental_id + 1 })

/-- The `return_data` dictionary built by `RentalModel.return_movie` on
success. -/
structure ReturnData where
  rental_id : Nat
  movie_title : String
  return_date : Int
  late_days : Int
  late_fee : Int
  original_charge : Int
  total_paid : Int
deriving Repr, DecidableEq

/-- Result of `RentalModel.return_movie`: the single merged failure
message "Rental not found or already returned", or success with the
`return_data` dictionary. -/
inductive ReturnResult
  | rentalNotFound
  | ok (data : ReturnData)
deriving Repr, DecidableEq

/-- The success flag of a `ReturnResult`. -/
def ReturnResult.isOk : ReturnResult → Bool
  | .ok _ => true
  | _ => false

/-- `RentalModel.return_movie` (src/models/rental_model.py, lines
125-227), on the non-error-path.  The SELECT joins `rentals` with
`movies` and filters `rental_status = 'active'`, so the lookup fails
when the rental is missing, when its status is not `active` (including
`overdue`), or when the joined movie row is missing.  On success it
updates the rental, inserts the return row, and increments the stock. -/
def return_movie (s : DBState) (rental_id employee_id : Nat)
    (today : Int) : ReturnResult × DBState :=
  match findRow rental_id s.rentals with
  | none => (.rentalNotFound, s)
  | some r =>
    if r.rental_status ≠ .active then (.rentalNotFound, s)
    else
      match findRow r.movie_id s.movies with
      | none => (.rentalNotFound, s)
      | some m =>
        let return_date := today
        let late_days := max 0 (return_date - r.due_date)
        let late_fee := late_days * late_fee_per_day
        let total_paid := r.total_charge + late_fee
        let r' := { r with actual_return_date := some return_date,
                           late_fee := late_fee, rental_status := .returned }
        let ret : ReturnRow :=
          { rental_id := rental_id, return_date := return_date, late_days := late_days,
            late_fee := late_fee, total_paid := total_paid, processed_by := employee_id }
        let new_stock := m.stock_quantity + 1
        let m' := { m with stock_quantity := new_stock, is_available := true }
        (.ok { rental_id := rental_id, movie_title := m.title, return_date := return_date,
               late_days := late_days, late_fee := late_fee,
               original_charge := r.total_charge, total_paid := total_paid },
         { s with
            rentals := updRow rental_id r' s.rentals,
            returns := s.returns ++ [ret],
            movies := updRow r.movie_id m' s.movies })

/-- `RentalModel.calculate_late_fee` (src/models/rental_model.py, lines
229-246).  The Python default `return_date=None` means "today"; the
caller passes the clock value explicitly here. -/
def calculate_late_fee (due_date return_date : Int) : Int × Int :=
  let late_days := max 0 (return_date - due_date)
  let late_fee := late_days * late_fee_per_day
  (late_days, late_fee)

/-- The WHERE clause of `update_overdue_statuses`:
`rental_status = 'active' AND due_date < CURDATE()`. -/
def isOverdueCandidate (today : Int) (p : Nat × Rental) : Bool :=
  decide (p.2.rental_status = .active ∧ p.2.due_date < today)

/-- `RentalModel.update_overdue_statuses` (src/models/rental_model.py,
lines 381-418): set every active past-due rental to `overdue`, returning
`cursor.rowcount` (the number of rows changed). -/
def update_overdue_statuses (s : DBState) (today : Int) : Nat × DBState :=
  let updated_count := (s.rentals.filter (isOverdueCandidate today)).length
  let rentals' := s.rentals.map fun p =>
    if isOverdueCandidate today p then (p.1, { p.2 with rental_status := RentalStatus.overdue }) else p
  (updated_count, { s with rentals := rentals' })

/-- `RentalModel.get_overdue_rentals` (src/models/rental_model.py, lines
336-379): the overdue report, selecting rentals with
`rental_status = 'active' AND due_date < CURDATE()` joined against
customers, movies and employees.  Only the selected rows matter here, so
the result keeps the rental rows (the source also projects joined name
columns and orders by due date). -/
def get_overdue_rentals (s : DBState) (today : Int) : List (Nat × Rental) :=
  s.rentals.filter fun p =>
    (findRow p.2.customer_id s.customers).isSome &&
    (findRow p.2.movie_id s.movies).isSome &&
    s.employees.contains p.2.employee_id &&
    isOverdueCandidate today p

/-- `RentalModel.search_rentals` (src/models/rental_model.py, lines
248-325): dynamic filters over the joined rentals table (a `none`
argument means the Python caller passed `None`, adding no condition;
ordering of the result rows is not modelled). -/
def search_rentals (s : DBState) (customer_id movie_id : Option Nat)
    (status : Option RentalStatus) (start_date end_date : Option Int) :
    List (Nat × Rental) :=
  s.rentals.filter fun p =>
    (match customer_id with | some c => decide (p.2.customer_id = c) | none => true) &&
    (match movie_id with | some m => decide (p.2.movie_id = m) | none => true) &&
    (match status with | some st => decide (p.2.rental_status = st) | none => true) &&
    (match start_date with | some d => decide (d ≤ p.2.rental_date) | none => true) &&
    (match end_date with | some d => decide (p.2.rental_date ≤ d) | none => true) &&
    (findRow p.2.customer_id s.customers).isSome &&
    (findRow p.2.movie_id s.movies).isSome &&
    s.employees.contains p.2.employee_id

/-- `RentalModel.get_active_rentals` (src/models/rental_model.py, lines
327-334): `search_rentals(status='active')`. -/
def get_active_rentals (s : DBState) : List (Nat × Rental) :=
  search_rentals s none none (some .active) none none

/-! ### Precondition predicates of `rent_movie`

`customerOk` is the conjunction of checks 1 and 2 of the source
(customer row found, `is_active` truthy); `movieOk` is the conjunction
of checks 3 and 4 (movie row found, `is_available` truthy and
`stock_quantity > 0`). -/

def customerOk (s : DBState) (customer_id : Nat) : Prop :=
  ∃ c, findRow customer_id s.customers = some c ∧ c.is_active = true

def movieOk (s : DBState) (movie_id : Nat) : Prop :=
  ∃ m, findRow movie_id s.movies = some m ∧
    m.is_available = true ∧ 0 < m.stock_quantity

/-! ### Concrete example databases

Used to instantiate the general theorems.  Money is in cents (the
movie's rate 299 is the schema default DECIMAL 2.99), dates are day
numbers. -/

/-- The movie row of `exInitState`: rate 2.99, both copies in stock. -/
def exMovie : Movie :=
  { title := "M", rental_rate := 299, stock_quantity := 2, total_copies := 2,
    is_available := true }

/-- The same movie with one copy out. -/
def exMovieOneLeft : Movie :=
  { title := "M", rental_rate := 299, stock_quantity := 1, total_copies := 2,
    is_available := true }

/-- One active customer (id 1), one employee (id 5), one movie (id 1,
rate 2.99, two copies, available), no rentals yet. -/
def exInitState : DBState :=
  { customers := [(1, { is_active := true })],
    employees := [5],
    movies := [(1, exMovie)],
    rentals := [],
    returns := [],
    next_rental_id := 1 }

/-- A rental already promoted to `overdue` (due day 10), its movie in
stock. -/
def exOverdueRental : Rental :=
  { customer_id := 1, movie_id := 1, employee_id := 5, rental_date := 0,
    due_date := 10, actual_return_date := none, total_charge := 2990,
    late_fee := 0, rental_status := .overdue }

/-- Database whose single rental has already been promoted to
`overdue`. -/
def exOverdueState : DBState :=
  { customers := [(1, { is_active := true })],
    employees := [5],
    movies := [(1, exMovieOneLeft)],
    rentals := [(1, exOverdueRental)],
    returns := [],
    next_rental_id := 2 }

/-- A rental already returned. -/
def exReturnedRental : Rental :=
  { customer_id := 1, movie_id := 1, employee_id := 5, rental_date := 0,
    due_date := 10, actual_return_date := some 9, total_charge := 2990,
    late_fee := 0, rental_status := .returned }

/-- Database whose single rental has already been returned. -/
def exReturnedState : DBState :=
  { customers := [(1, { is_active := true })],
    employees := [5],
    movies := [(1, exMovie)],
    rentals := [(1, exReturnedRental)],
    returns := [{ rental_id := 1, return_date := 9, late_days := 0, late_fee := 0,
                  total_paid := 2990, processed_by := 5 }],
    next_rental_id := 2 }

/-- An active rental past its due date (due day 10), not yet promoted. -/
def exActiveLateRental : Rental :=
  { customer_id := 1, movie_id := 1, employee_id := 5, rental_date := 0,
    due_date := 10, actual_return_date := none, total_charge := 2990,
    late_fee := 0, rental_status := .active }

/-- Database whose single rental is `active` and past due at day 20. -/
def exActiveLateState : DBState :=
  { customers := [(1, { is_active := true })],
    employees := [5],
    movies := [(1, exMovieOneLeft)],
    rentals := [(1, exActiveLateRental)],
    returns := [],
    next_rental_id := 2 }

/-! ### State-machine view for the invariant claims -/

/-- The movie-table invariant: nonnegative stock and `is_available` iff
positive stock. -/
def movieInv (s : DBState) : Prop :=
  ∀ k m, findRow k s.movies = some m →
    0 ≤ m.stock_quantity ∧ (m.is_available = true ↔ 0 < m.stock_quantity)

/-- Rows of the rentals table that still hold a copy of movie `mid`
(status `active` or `overdue`, i.e. not `returned`). -/
def outstandingP (mid : Nat) (p : Nat × Rental) : Bool :=
  decide (p.2.movie_id = mid ∧ p.2.rental_status ≠ RentalStatus.returned)

/-- Number of outstanding (not returned) rentals of movie `mid`. -/
def outstanding (s : DBState) (mid : Nat) : Nat :=
  (s.rentals.filter (outstandingP mid)).length

/-- Well-formedness of the rentals table: distinct primary keys, all
below the AUTO_INCREMENT counter. -/
def RentalsWF (s : DBState) : Prop :=
  (s.rentals.map Prod.fst).Nodup ∧
  ∀ k ∈ s.rentals.map Prod.fst, k < s.next_rental_id

/-- Accounting invariant behind C4: a movie's stock plus its outstanding
rentals never exceeds its total_copies. -/
def stockInv (s : DBState) : Prop :=
  ∀ k m, findRow k s.movies = some m →
    m.stock_quantity + (outstanding s k : Int) ≤ m.total_copies

/-- One operation of the rental subsystem, as a step relation on
database states. -/
inductive Step : DBState → DBState → Prop
  | rent (s : DBState) (customer_id movie_id employee_id : Nat)
      (due_date today : Int) :
      Step s (rent_movie s customer_id movie_id employee_id due_date today).2
  | ret (s : DBState) (rental_id employee_id : Nat) (today : Int) :
      Step s (return_movie s rental_id employee_id today).2
  | promote (s : DBState) (today : Int) :
      Step s (update_overdue_statuses s today).2

/-- States reachable from `init` by any sequence of rent, return and
promote operations. -/
def Reachable (init s : DBState) : Prop := Relation.ReflTransGen Step init s

/-- Preconditions under which a rent-then-return pair on movie `mid` by
customer `cid` goes through: active customer, available movie with
positive stock, future due date, well-formed rentals table. -/
def pairPre (cid mid : Nat) (due today : Int) (s : DBState) : Prop :=
  (∃ c, findRow cid s.customers = some c ∧ c.is_active = true) ∧
  (∃ m, findRow mid s.movies = some m ∧ m.is_available = true ∧
    0 < m.stock_quantity) ∧
  0 < due - today ∧ RentalsWF s

/-- Rent movie `mid` and immediately return the rental just created. -/
def rentReturnPair (cid mid eid : Nat) (due today : Int) (s : DBState) : DBState :=
  (return_movie (rent_movie s cid mid eid due today).2 s.next_rental_id eid today).2

/-- `n` consecutive rent/return pairs on the same movie. -/
def rentReturnIter (cid mid eid : Nat) (due today : Int) : Nat → DBState → DBState
  | 0, s => s
  | n + 1, s =>
      rentReturnIter cid mid eid due today n (rentReturnPair cid mid eid due today s)

/-! ### Association-list lemmas -/

theorem findRow_cons {α : Type} (k k' : Nat) (v : α) (l : List (Nat × α)) :
    findRow k ((k', v) :: l) = if k' = k then some v else findRow k l := rfl

theorem mem_keys_of_findRow {α : Type} {k : Nat} {v : α} {l : List (Nat × α)}
    (h : findRow k l = some v) : k ∈ l.map Prod.fst := by
  induction l with
  | nil => simp [findRow] at h
  | cons p rest ih =>
    obtain ⟨k', v'⟩ := p
    rw [findRow_cons] at h
    by_cases hk : k' = k
    · simp [hk]
    · rw [if_neg hk] at h
      simpa using Or.inr (ih h)

theorem updRow_cons {α : Type} (k : Nat) (v : α) (k₁ : Nat) (v₁ : α)
    (l : List (Nat × α)) :
    updRow k v ((k₁, v₁) :: l)
      = (if k₁ = k then (k, v) else (k₁, v₁)) :: updRow k v l := rfl

theorem findRow_eq_none_of_not_mem {α : Type} {k : Nat} {l : List (Nat × α)}
    (h : k ∉ l.map Prod.fst) : findRow k l = none := by
  induction l with
  | nil => rfl
  | cons p rest ih =>
    obtain ⟨k', v'⟩ := p
    simp only [List.map_cons, List.mem_cons] at h
    push_neg at h
    rw [findRow_cons, if_neg (Ne.symm h.1)]
    exact ih h.2

theorem findRow_updRow_self {α : Type} (k : Nat) (v : α) (l : List (Nat × α)) :
    findRow k (updRow k v l) = (findRow k l).map fun _ => v := by
  induction l with
  | nil => rfl
  | cons p rest ih =>
    obtain ⟨k', v'⟩ := p
    rw [updRow_cons]
    by_cases hk : k' = k
    · rw [if_pos hk, findRow_cons, findRow_cons, if_pos hk, if_pos rfl]
      rfl
    · rw [if_neg hk, findRow_cons, findRow_cons, if_neg hk, if_neg hk]
      exact ih

theorem findRow_updRow_ne {α : Type} {k k' : Nat} (v : α) (l : List (Nat × α))
    (h : k' ≠ k) : findRow k' (updRow k v l) = findRow k' l := by
  induction l with
  | nil => rfl
  | cons p rest ih =>
    obtain ⟨k₁, v₁⟩ := p
    rw [updRow_cons]
    by_cases hk : k₁ = k
    · rw [if_pos hk, findRow_cons, findRow_cons,
        if_neg (fun hh : k = k' => h hh.symm),
        if_neg (fun hh : k₁ = k' => h (hk ▸ hh).symm)]
      exact ih
    · rw [if_neg hk, findRow_cons, findRow_cons]
      by_cases hk' : k₁ = k'
      · rw [if_pos hk', if_pos hk']
      · rw [if_neg hk', if_neg hk']
        exact ih

theorem updRow_keys {α : Type} (k : Nat) (v : α) (l : List (Nat × α)) :
    (updRow k v l).map Prod.fst = l.map Prod.fst := by
  induction l with
  | nil => rfl
  | cons p rest ih =>
    obtain ⟨k₁, v₁⟩ := p
    rw [updRow_cons, List.map_cons, List.map_cons, ih]
    by_cases hk : k₁ = k
    · rw [if_pos hk, hk]
    · rw [if_neg hk]

theorem updRow_eq_of_not_mem {α : Type} {k : Nat} (v : α) {l : List (Nat × α)}
    (h : k ∉ l.map Prod.fst) : updRow k v l = l := by
  induction l with
  | nil => rfl
  | cons p rest ih =>
    obtain ⟨k₁, v₁⟩ := p
    simp only [List.map_cons, List.mem_cons] at h
    push_neg at h
    rw [updRow_cons, if_neg (Ne.symm h.1), ih h.2]

theorem findRow_append_right {α : Type} {k : Nat} {l : List (Nat × α)}
    (h : findRow k l = none) (l' : List (Nat × α)) :
    findRow k (l ++ l') = findRow k l' := by
  induction l with
  | nil => rfl
  | cons p rest ih =>
    obtain ⟨k₁, v₁⟩ := p
    rw [findRow_cons] at h
    by_cases hk : k₁ = k
    · rw [if_pos hk] at h; cases h
    · rw [if_neg hk] at h
      rw [List.cons_append, findRow_cons, if_neg hk]
      exact ih h

theorem findRow_append_left {α : Type} {k k' : Nat} {v : α} (l : List (Nat × α))
    (h : k' ≠ k) : findRow k' (l ++ [(k, v)]) = findRow k' l := by
  induction l with
  | nil =>
    rw [List.nil_append, findRow_cons, if_neg (Ne.symm h)]
  | cons p rest ih =>
    obtain ⟨k₁, v₁⟩ := p
    rw [List.cons_append, findRow_cons, findRow_cons]
    by_cases hk : k₁ = k'
    · rw [if_pos hk, if_pos hk]
    · rw [if_neg hk, if_neg hk]
      exact ih

/-- Length of a filter after replacing the (unique) row with key `k`:
the replaced row's contribution is swapped for the new row's. -/
theorem length_filter_updRow {α : Type} {l : List (Nat × α)} {k : Nat} {r : α}
    (r' : α) (P : Nat × α → Bool)
    (hnd : (l.map Prod.fst).Nodup) (hf : findRow k l = some r) :
    ((updRow k r' l).filter P).length + (if P (k, r) then 1 else 0)
      = (l.filter P).length + (if P (k, r') then 1 else 0) := by
  induction l with
  | nil => simp [findRow] at hf
  | cons p rest ih =>
    obtain ⟨k₁, v₁⟩ := p
    rw [findRow_cons] at hf
    simp only [List.map_cons, List.nodup_cons] at hnd
    rw [updRow_cons]
    by_cases hk : k₁ = k
    · subst hk
      rw [if_pos rfl] at hf
      cases hf
      rw [if_pos rfl, updRow_eq_of_not_mem r' hnd.1]
      by_cases h1 : P (k₁, r) <;> by_cases h2 : P (k₁, r') <;>
        simp only [List.filter_cons, h1, h2, if_pos, if_neg, List.length_cons,
          Bool.false_eq_true, if_false, if_true] <;> omega
    · rw [if_neg hk] at hf
      rw [if_neg hk]
      have hrec := ih hnd.2 hf
      by_cases h1 : P (k₁, v₁) <;>
        simp only [List.filter_cons, h1, Bool.false_eq_true, if_false, if_true,
          List.length_cons] <;> omega

/-- Filtering a mapped list whose mapping function does not change the
filter predicate's value. -/
theorem length_filter_map_congr {α : Type} {l : List α} {f : α → α} {P : α → Bool}
    (h : ∀ a ∈ l, P (f a) = P a) :
    ((l.map f).filter P).length = (l.filter P).length := by
  induction l with
  | nil => rfl
  | cons a rest ih =>
    simp only [List.map_cons, List.filter_cons, h a (List.mem_cons_self a rest)]
    have := ih fun a ha => h a (List.mem_cons_of_mem _ ha)
    by_cases hP : P a <;> simp [hP, this]

theorem findRow_singleton {α : Type} {k k₀ : Nat} {v₀ r : α}
    (h : findRow k [(k₀, v₀)] = some r) : k₀ = k ∧ r = v₀ := by
  rw [findRow_cons] at h
  by_cases hk : k₀ = k
  · rw [if_pos hk] at h
    cases h
    exact ⟨hk, rfl⟩
  · rw [if_neg hk] at h
    cases h

/-- Case analysis of `rent_movie`: either some precondition failed, the
result is a failure and the state is unchanged, or all preconditions
held and the call inserted the rental row and decremented the stock. -/
theorem rent_movie_cases (s : DBState) (cid mid eid : Nat) (due today : Int) :
    (¬(customerOk s cid ∧ movieOk s mid ∧ 0 < due - today) ∧
      (rent_movie s cid mid eid due today).1.isOk = false ∧
      (rent_movie s cid mid eid due today).2 = s) ∨
    (∃ c m, findRow cid s.customers = some c ∧ c.is_active = true ∧
      findRow mid s.movies = some m ∧ m.is_available = true ∧
      0 < m.stock_quantity ∧ 0 < due - today ∧
      rent_movie s cid mid eid due today =
        (.ok s.next_rental_id (m.rental_rate * (due - today)),
         { s with
            rentals := s.rentals ++
              [(s.next_rental_id,
                mkRental cid mid eid today due (m.rental_rate * (due - today)))],
            movies := updRow mid
              { m with stock_quantity := m.stock_quantity - 1,
                       is_available := decide (0 < m.stock_quantity - 1) } s.movies,
            next_rental_id := s.next_rental_id + 1 })) := by
  unfold rent_movie
  split
  next hc =>
    refine Or.inl ⟨?_, rfl, rfl⟩
    rintro ⟨⟨c, hcc, -⟩, -⟩
    rw [hc] at hcc
    cases hcc
  next c hc =>
    split
    next h1 =>
      refine Or.inl ⟨?_, rfl, rfl⟩
      rintro ⟨⟨c', hcc, hca⟩, -⟩
      rw [hc] at hcc
      cases hcc
      rw [h1] at hca
      cases hca
    next h1 =>
      have hca : c.is_active = true := by
        cases hh : c.is_active
        · exact absurd hh h1
        · rfl
      split
      next hm =>
        refine Or.inl ⟨?_, rfl, rfl⟩
        rintro ⟨-, ⟨m, hmm, -⟩, -⟩
        rw [hm] at hmm
        cases hmm
      next m hm =>
        split
        next h2 =>
          refine Or.inl ⟨?_, rfl, rfl⟩
          rintro ⟨-, ⟨m', hmm, hav, hst⟩, -⟩
          rw [hm] at hmm
          cases hmm
          rcases h2 with h2 | h2
          · rw [h2] at hav
            cases hav
          · omega
        next h2 =>
          push_neg at h2
          have hav : m.is_available = true := by
            cases hh : m.is_available
            · exact absurd hh h2.1
            · rfl
          dsimp only
          split
          next h3 =>
            refine Or.inl ⟨?_, rfl, rfl⟩
            rintro ⟨-, -, hd⟩
            omega
          next h3 =>
            exact Or.inr ⟨c, m, hc, hca, hm, hav, h2.2, by omega, rfl⟩

/-- Case analysis of `return_movie`: either the SELECT found no row (no
rental with that id whose status is `active` and whose movie row
exists), the result is the merged failure and the state is unchanged;
or it succeeded and performed the three writes. -/
theorem return_movie_cases (s : DBState) (rid eid : Nat) (today : Int) :
    (¬(∃ r, findRow rid s.rentals = some r ∧ r.rental_status = .active ∧
        (findRow r.movie_id s.movies).isSome = true) ∧
      return_movie s rid eid today = (.rentalNotFound, s)) ∨
    (∃ r m, findRow rid s.rentals = some r ∧ r.rental_status = .active ∧
      findRow r.movie_id s.movies = some m ∧
      return_movie s rid eid today =
        (.ok { rental_id := rid, movie_title := m.title, return_date := today,
               late_days := max 0 (today - r.due_date),
               late_fee := max 0 (today - r.due_date) * late_fee_per_day,
               original_charge := r.total_charge,
               total_paid := r.total_charge
                 + max 0 (today - r.due_date) * late_fee_per_day },
         { s with
            rentals := updRow rid
              { r with actual_return_date := some today,
                       late_fee := max 0 (today - r.due_date) * late_fee_per_day,
                       rental_status := .returned } s.rentals,
            returns := s.returns ++
              [{ rental_id := rid, return_date := today,
                 late_days := max 0 (today - r.due_date),
                 late_fee := max 0 (today - r.due_date) * late_fee_per_day,
                 total_paid := r.total_charge
                   + max 0 (today - r.due_date) * late_fee_per_day,
                 processed_by := eid }],
            movies := updRow r.movie_id
              { m with stock_quantity := m.stock_quantity + 1,
                       is_available := true } s.movies })) := by
  unfold return_movie
  split
  next hr =>
    refine Or.inl ⟨?_, rfl⟩
    rintro ⟨r, hrr, -⟩
    rw [hr] at hrr
    cases hrr
  next r hr =>
    split
    next h1 =>
      refine Or.inl ⟨?_, rfl⟩
      rintro ⟨r', hrr, hact, -⟩
      rw [hr] at hrr
      cases hrr
      exact h1 hact
    next h1 =>
      push_neg at h1
      split
      next hm =>
        refine Or.inl ⟨?_, rfl⟩
        rintro ⟨r', hrr, -, hsome⟩
        rw [hr] at hrr
        cases hrr
        rw [hm] at hsome
        cases hsome
      next m hm => exact Or.inr ⟨r, m, hr, h1, hm, rfl⟩

/-! ### Claim C1 -/

/-- C1 (amended): `returnRental(rental_id, employee_id)` succeeds exactly
when a rental with that id exists and its status is `active`; a rental
already promoted to `overdue` can no longer be returned and fails with
the same merged RentalNotFound error as a missing or already-returned
rental, and on failure the state is unchanged, so no second Return row
is created and the stock is not incremented.  The hypothesis is
referential integrity of the rentals-movies join (enforced by the
schema's FOREIGN KEY). -/
theorem C1_return_active_only (s : DBState) (rid eid : Nat) (today : Int)
    (hwf : ∀ k r, findRow k s.rentals = some r →
      (findRow r.movie_id s.movies).isSome = true) :
    ((return_movie s rid eid today).1.isOk = true ↔
      ∃ r, findRow rid s.rentals = some r ∧ r.rental_status = .active) ∧
    ((return_movie s rid eid today).1.isOk = false →
      (return_movie s rid eid today).1 = .rentalNotFound ∧
      (return_movie s rid eid today).2 = s) := by
  rcases return_movie_cases s rid eid today with ⟨hneg, heq⟩ | ⟨r, m, hr, hact, hm, heq⟩
  · rw [heq]
    refine ⟨⟨fun h => Bool.noConfusion h, ?_⟩, fun _ => ⟨rfl, rfl⟩⟩
    rintro ⟨r, hr, hact⟩
    exact absurd ⟨r, hr, hact, hwf rid r hr⟩ hneg
  · rw [heq]
    exact ⟨⟨fun _ => ⟨r, hr, hact⟩, fun _ => rfl⟩, fun h => Bool.noConfusion h⟩

/-- C1, counterexample to the claim as stated: in `exOverdueState`
rental 1 exists and its status is `overdue`, so per the claim the return
should succeed, yet `return_movie` fails with the merged error and
leaves the state unchanged. -/
theorem C1_counterexample :
    (∃ r, findRow 1 exOverdueState.rentals = some r ∧
      (r.rental_status = .active ∨ r.rental_status = .overdue)) ∧
    (return_movie exOverdueState 1 5 20).1 = .rentalNotFound ∧
    (return_movie exOverdueState 1 5 20).2 = exOverdueState :=
  ⟨⟨exOverdueRental, rfl, Or.inr rfl⟩, rfl, rfl⟩

/-- C1, witness: at `exReturnedState` (whose only rental is already
returned) the amended theorem applies: the call fails with the merged
error and changes nothing. -/
theorem C1_witness :
    (return_movie exReturnedState 1 5 20).1 = ReturnResult.rentalNotFound ∧
    (return_movie exReturnedState 1 5 20).2 = exReturnedState := by
  have hwf : ∀ k r, findRow k exReturnedState.rentals = some r →
      (findRow r.movie_id exReturnedState.movies).isSome = true := by
    intro k r h
    have h' : findRow k [(1, exReturnedRental)] = some r := h
    obtain ⟨hk, hr⟩ := findRow_singleton h'
    subst hr
    rfl
  exact (C1_return_active_only exReturnedState 1 5 20 hwf).2 rfl

/-! ### Claim C2 -/

/-- C2: `rent` checks its four preconditions in the stated order
(customer exists and active, movie exists, movie available with positive
stock, due date strictly after today) with the first failure winning:
each failure result is returned exactly when every earlier check passed
and that check failed, and every failure leaves the state unchanged:
no rental row inserted, no stock decremented.  `movieUnavailable` in
particular covers `stock_quantity = 0` and `invalidDueDate` covers
`due_date ≤ today`. -/
theorem C2_rent_precondition_order (s : DBState) (cid mid eid : Nat)
    (due today : Int) :
    ((rent_movie s cid mid eid due today).1 = .customerNotFound ↔
      findRow cid s.customers = none) ∧
    ((rent_movie s cid mid eid due today).1 = .customerInactive ↔
      ∃ c, findRow cid s.customers = some c ∧ c.is_active = false) ∧
    ((rent_movie s cid mid eid due today).1 = .movieNotFound ↔
      customerOk s cid ∧ findRow mid s.movies = none) ∧
    ((rent_movie s cid mid eid due today).1 = .movieUnavailable ↔
      customerOk s cid ∧
      ∃ m, findRow mid s.movies = some m ∧
        (m.is_available = false ∨ m.stock_quantity ≤ 0)) ∧
    ((rent_movie s cid mid eid due today).1 = .invalidDueDate ↔
      customerOk s cid ∧ movieOk s mid ∧ due - today ≤ 0) ∧
    ((rent_movie s cid mid eid due today).1.isOk = false →
      (rent_movie s cid mid eid due today).2 = s) := by
  unfold rent_movie
  split
  next hc =>
    have hnone : ∀ c : Customer, findRow cid s.customers ≠ some c := by
      intro c hcc
      rw [hc] at hcc
      cases hcc
    refine ⟨iff_of_true rfl hc, ?_, ?_, ?_, ?_, fun _ => rfl⟩
    · refine iff_of_false (by simp) ?_
      rintro ⟨c, hcc, -⟩
      exact hnone c hcc
    · refine iff_of_false (by simp) ?_
      rintro ⟨⟨c, hcc, -⟩, -⟩
      exact hnone c hcc
    · refine iff_of_false (by simp) ?_
      rintro ⟨⟨c, hcc, -⟩, -⟩
      exact hnone c hcc
    · refine iff_of_false (by simp) ?_
      rintro ⟨⟨c, hcc, -⟩, -⟩
      exact hnone c hcc
  next c hc =>
    split
    next h1 =>
      have hnotCust : ¬customerOk s cid := by
        rintro ⟨c', hcc, hca⟩
        rw [hc] at hcc
        cases hcc
        rw [h1] at hca
        exact Bool.noConfusion hca
      refine ⟨?_, iff_of_true rfl ⟨c, hc, h1⟩, ?_, ?_, ?_, fun _ => rfl⟩
      · refine iff_of_false (by simp) ?_
        rw [hc]
        simp
      · exact iff_of_false (by simp) fun h => hnotCust h.1
      · exact iff_of_false (by simp) fun h => hnotCust h.1
      · exact iff_of_false (by simp) fun h => hnotCust h.1
    next h1 =>
      have hca : c.is_active = true := by
        cases hh : c.is_active
        · exact absurd hh h1
        · rfl
      have hcust : customerOk s cid := ⟨c, hc, hca⟩
      have hnotInactive : ¬∃ c', findRow cid s.customers = some c' ∧
          c'.is_active = false := by
        rintro ⟨c', hcc, hfalse⟩
        rw [hc] at hcc
        cases hcc
        exact h1 hfalse
      split
      next hm =>
        have hmnone : ∀ m : Movie, findRow mid s.movies ≠ some m := by
          intro m hmm
          rw [hm] at hmm
          cases hmm
        refine ⟨?_, ?_, iff_of_true rfl ⟨hcust, hm⟩, ?_, ?_, fun _ => rfl⟩
        · refine iff_of_false (by simp) ?_
          rw [hc]
          simp
        · exact iff_of_false (by simp) hnotInactive
        · refine iff_of_false (by simp) ?_
          rintro ⟨-, m, hmm, -⟩
          exact hmnone m hmm
        · refine iff_of_false (by simp) ?_
          rintro ⟨-, ⟨m, hmm, -⟩, -⟩
          exact hmnone m hmm
      next m hm =>
        split
        next h2 =>
          have hnotMovieOk : ¬movieOk s mid := by
            rintro ⟨m', hmm, hav, hst⟩
            rw [hm] at hmm
            cases hmm
            rcases h2 with h2 | h2
            · rw [h2] at hav
              exact Bool.noConfusion hav
            · omega
          refine ⟨?_, ?_, ?_, iff_of_true rfl ⟨hcust, m, hm, h2⟩, ?_, fun _ => rfl⟩
          · refine iff_of_false (by simp) ?_
            rw [hc]
            simp
          · exact iff_of_false (by simp) hnotInactive
          · refine iff_of_false (by simp) ?_
            rintro ⟨-, hmm⟩
            rw [hm] at hmm
            cases hmm
          · exact iff_of_false (by simp) fun h => hnotMovieOk h.2.1
        next h2 =>
          push_neg at h2
          have hav : m.is_available = true := by
            cases hh : m.is_available
            · exact absurd hh h2.1
            · rfl
          have hmovie : movieOk s mid := ⟨m, hm, hav, h2.2⟩
          have hnotUnavail : ¬∃ m', findRow mid s.movies = some m' ∧
              (m'.is_available = false ∨ m'.stock_quantity ≤ 0) := by
            rintro ⟨m', hmm, hdis⟩
            rw [hm] at hmm
            cases hmm
            rcases hdis with hdis | hdis
            · rw [hdis] at hav
              exact Bool.noConfusion hav
            · omega
          dsimp only
          split
          next h3 =>
            refine ⟨?_, ?_, ?_, ?_, iff_of_true rfl ⟨hcust, hmovie, h3⟩,
              fun _ => rfl⟩
            · refine iff_of_false (by simp) ?_
              rw [hc]
              simp
            · exact iff_of_false (by simp) hnotInactive
            · refine iff_of_false (by simp) ?_
              rintro ⟨-, hmm⟩
              rw [hm] at hmm
              cases hmm
            · exact iff_of_false (by simp) fun h => hnotUnavail h.2
          next h3 =>
            refine ⟨?_, ?_, ?_, ?_, ?_, fun h => absurd h (by simp [RentResult.isOk])⟩
            · refine iff_of_false (by simp) ?_
              rw [hc]
              simp
            · exact iff_of_false (by simp) hnotInactive
            · refine iff_of_false (by simp) ?_
              rintro ⟨-, hmm⟩
              rw [hm] at hmm
              cases hmm
            · exact iff_of_false (by simp) fun h => hnotUnavail h.2
            · exact iff_of_false (by simp) fun h => h3 h.2.2

/-- C2, witness: renting for the nonexistent customer 2 fails and
leaves `exInitState` unchanged. -/
theorem C2_witness : (rent_movie exInitState 2 1 5 7 0).2 = exInitState :=
  (C2_rent_precondition_order exInitState 2 1 5 7 0).2.2.2.2.2 rfl

/-! ### Claim C5 -/

/-- C5: `calculateLateFee` is a pure function of the two dates (the
embedding passes the clock value explicitly for the Python default
`return_date=None`, which means today): late_days is
`max(0, return_date - due_date)` in days, late_fee is
`late_days * late_fee_per_day` with the default fee 2.00 per day
(200 cents); on the spec's concrete dates it yields
(5, 10.00) for 2024-01-10 to 2024-01-15 and (0, 0.00) for
2024-01-10 to 2024-01-05. -/
theorem C5_calculate_late_fee (due ret : Int) :
    (calculate_late_fee due ret).1 = max 0 (ret - due) ∧
    (calculate_late_fee due ret).2 = (calculate_late_fee due ret).1 * 200 ∧
    calculate_late_fee (days_from_civil 2024 1 10) (days_from_civil 2024 1 15)
      = (5, 1000) ∧
    calculate_late_fee (days_from_civil 2024 1 10) (days_from_civil 2024 1 5)
      = (0, 0) :=
  ⟨rfl, rfl, by decide, by decide⟩

/-! ### Claim C6 -/

/-- C6: a successful `rent` charges exactly
`rental_rate * (due_date - rental_date)`; a successful `returnRental`
charges exactly `original total_charge + late_fee` with
`late_fee = max 0 (return_date - due_date) * late_fee_per_day`; and on
the spec's concrete scenario (rate 2.99, due in 7 days, returned 3 days
late, fee 2.00/day) the amounts are 20.93, 6.00 and 26.93 (in cents:
2093, 600, 2693). -/
theorem C6_charge_amounts :
    (∀ (s : DBState) (cid mid eid : Nat) (due today : Int) (rid : Nat)
      (charge : Int),
      (rent_movie s cid mid eid due today).1 = .ok rid charge →
      ∃ m, findRow mid s.movies = some m ∧
        charge = m.rental_rate * (due - today)) ∧
    (∀ (s : DBState) (rid eid : Nat) (today : Int) (d : ReturnData),
      (return_movie s rid eid today).1 = .ok d →
      ∃ r, findRow rid s.rentals = some r ∧
        d.late_fee = max 0 (today - r.due_date) * late_fee_per_day ∧
        d.total_paid = r.total_charge + d.late_fee) ∧
    (rent_movie exInitState 1 1 5 7 0).1 = .ok 1 2093 ∧
    (return_movie (rent_movie exInitState 1 1 5 7 0).2 1 5 10).1 =
      .ok { rental_id := 1, movie_title := "M", return_date := 10,
            late_days := 3, late_fee := 600, original_charge := 2093,
            total_paid := 2693 } := by
  refine ⟨?_, ?_, by decide, by decide⟩
  · intro s cid mid eid due today rid charge h
    rcases rent_movie_cases s cid mid eid due today with ⟨-, hfail, -⟩ | ⟨c, m, -, -, hm, -, -, -, heq⟩
    · rw [h] at hfail
      exact absurd hfail (by simp [RentResult.isOk])
    · rw [heq] at h
      cases h
      exact ⟨m, hm, rfl⟩
  · intro s rid eid today d h
    rcases return_movie_cases s rid eid today with ⟨-, heq⟩ | ⟨r, m, hr, -, -, heq⟩
    · rw [heq] at h
      cases h
    · rw [heq] at h
      cases h
      exact ⟨r, hr, rfl, rfl⟩

/-- C6, witness: the general charge laws applied to the concrete rent
and return of the scenario. -/
theorem C6_witness :
    (∃ m, findRow 1 exInitState.movies = some m ∧
      (2093 : Int) = m.rental_rate * (7 - 0)) ∧
    (∃ r, findRow 1 (rent_movie exInitState 1 1 5 7 0).2.rentals = some r ∧
      (600 : Int) = max 0 (10 - r.due_date) * late_fee_per_day ∧
      (2693 : Int) = r.total_charge + 600) := by
  constructor
  · exact C6_charge_amounts.1 exInitState 1 1 5 7 0 1 2093 (by decide)
  · have h := C6_charge_amounts.2.1 (rent_movie exInitState 1 1 5 7 0).2 1 5 10
      { rental_id := 1, movie_title := "M", return_date := 10, late_days := 3,
        late_fee := 600, original_charge := 2093, total_paid := 2693 }
      (by decide)
    exact h

/-- After one promotion sweep, no remaining rental still matches the
sweep's WHERE clause. -/
theorem promote_clears_candidates (s : DBState) (today : Int) :
    ∀ p ∈ (update_overdue_statuses s today).2.rentals,
      isOverdueCandidate today p = false := by
  intro p hp
  have hp' : p ∈ s.rentals.map fun q =>
      if isOverdueCandidate today q then
        (q.1, { q.2 with rental_status := RentalStatus.overdue }) else q := hp
  rcases List.mem_map.mp hp' with ⟨q, -, hq⟩
  by_cases hcq : isOverdueCandidate today q = true
  · rw [if_pos hcq] at hq
    rw [← hq]
    simp [isOverdueCandidate]
  · rw [if_neg hcq] at hq
    rw [← hq]
    exact Bool.eq_false_iff.mpr hcq

/-! ### Claim C8 -/

/-- C8: `promoteOverdue` is idempotent: for any state and fixed current
date, a second run immediately after a first one changes no rental and
reports zero updated rows. -/
theorem C8_promote_overdue_idempotent (s : DBState) (today : Int) :
    (update_overdue_statuses (update_overdue_statuses s today).2 today).1 = 0 ∧
    (update_overdue_statuses (update_overdue_statuses s today).2 today).2
      = (update_overdue_statuses s today).2 := by
  have hall := promote_clears_candidates s today
  have hmap : ((update_overdue_statuses s today).2.rentals.map fun p =>
      if isOverdueCandidate today p then
        (p.1, { p.2 with rental_status := RentalStatus.overdue }) else p)
      = (update_overdue_statuses s today).2.rentals := by
    conv_rhs => rw [← List.map_id ((update_overdue_statuses s today).2.rentals)]
    exact List.map_congr_left fun p hp => by
      rw [if_neg (by rw [hall p hp]; exact Bool.false_ne_true)]
      rfl
  constructor
  · show ((update_overdue_statuses s today).2.rentals.filter
        (isOverdueCandidate today)).length = 0
    have hnil : (update_overdue_statuses s today).2.rentals.filter
        (isOverdueCandidate today) = [] :=
      List.filter_eq_nil_iff.mpr fun p hp => by
        rw [hall p hp]
        exact Bool.false_ne_true
    rw [hnil]
    rfl
  · show ({ (update_overdue_statuses s today).2 with
      rentals := (update_overdue_statuses s today).2.rentals.map fun p =>
        if isOverdueCandidate today p then
          (p.1, { p.2 with rental_status := RentalStatus.overdue }) else p }
        : DBState) = (update_overdue_statuses s today).2
    rw [hmap]

/-! ### Claim C9 -/

/-- C9: the promotion sweep and the overdue report use the same
selection (`status = active AND due_date < today`), so immediately after
`promoteOverdue` the overdue report is empty; every row of the overdue
report is a promotion candidate; and a rental with status `overdue`
never appears in the active-rentals list. -/
theorem C9_promote_hides_overdue (s : DBState) (today : Int) :
    get_overdue_rentals (update_overdue_statuses s today).2 today = [] ∧
    (∀ p ∈ get_overdue_rentals s today, isOverdueCandidate today p = true) ∧
    (∀ p ∈ (update_overdue_statuses s today).2.rentals,
      p.2.rental_status = .overdue →
      p ∉ get_active_rentals (update_overdue_statuses s today).2) := by
  refine ⟨?_, ?_, ?_⟩
  · refine List.filter_eq_nil.mpr fun p hp => ?_
    rw [promote_clears_candidates s today p hp]
    simp
  · intro p hp
    have h := (List.mem_filter.mp hp).2
    simp only [Bool.and_eq_true] at h
    exact h.2
  · intro p hp hover hmem
    have h := (List.mem_filter.mp hmem).2
    simp only [Bool.and_eq_true, decide_eq_true_eq] at h
    rw [hover] at h
    simp at h

/-- C9, witness: after promoting `exActiveLateState` at day 20, the
promoted rental (now `overdue`) is absent from the active-rentals
list. -/
theorem C9_witness :
    ((1 : Nat), { exActiveLateRental with rental_status := RentalStatus.overdue })
      ∉ get_active_rentals (update_overdue_statuses exActiveLateState 20).2 :=
  (C9_promote_hides_overdue exActiveLateState 20).2.2
    (1, { exActiveLateRental with rental_status := RentalStatus.overdue })
    (by decide) rfl

/-! ### Claim C3 -/

/-- `rent_movie` preserves the movie-table invariant. -/
theorem movieInv_rent (s : DBState) (cid mid eid : Nat) (due today : Int)
    (h : movieInv s) : movieInv (rent_movie s cid mid eid due today).2 := by
  rcases rent_movie_cases s cid mid eid due today with
    ⟨-, -, heq⟩ | ⟨c, m, hc, hca, hm, hav, hst, hd, heq⟩
  · rw [heq]
    exact h
  · rw [heq]
    intro k m₂ hfind
    have hfind' : findRow k (updRow mid
        { m with stock_quantity := m.stock_quantity - 1,
                 is_available := decide (0 < m.stock_quantity - 1) } s.movies)
        = some m₂ := hfind
    by_cases hk : k = mid
    · subst hk
      rw [findRow_updRow_self, hm, Option.map_some'] at hfind'
      cases hfind'
      refine ⟨?_, ?_⟩
      · show (0 : Int) ≤ m.stock_quantity - 1
        omega
      · show decide (0 < m.stock_quantity - 1) = true ↔ 0 < m.stock_quantity - 1
        exact decide_eq_true_iff
    · rw [findRow_updRow_ne _ _ hk] at hfind'
      exact h k m₂ hfind'

/-- `return_movie` preserves the movie-table invariant. -/
theorem movieInv_return (s : DBState) (rid eid : Nat) (today : Int)
    (h : movieInv s) : movieInv (return_movie s rid eid today).2 := by
  rcases return_movie_cases s rid eid today with ⟨-, heq⟩ | ⟨r, m, hr, hact, hm, heq⟩
  · rw [heq]
    exact h
  · rw [heq]
    intro k m₂ hfind
    have hfind' : findRow k (updRow r.movie_id
        { m with stock_quantity := m.stock_quantity + 1, is_available := true }
        s.movies) = some m₂ := hfind
    by_cases hk : k = r.movie_id
    · subst hk
      rw [findRow_updRow_self, hm, Option.map_some'] at hfind'
      cases hfind'
      have h0 := (h r.movie_id m hm).1
      refine ⟨?_, ?_⟩
      · show (0 : Int) ≤ m.stock_quantity + 1
        omega
      · show true = true ↔ 0 < m.stock_quantity + 1
        constructor
        · intro _
          omega
        · intro _
          rfl
    · rw [findRow_updRow_ne _ _ hk] at hfind'
      exact h k m₂ hfind'

/-- `update_overdue_statuses` does not touch the movies table. -/
theorem movieInv_promote (s : DBState) (today : Int)
    (h : movieInv s) : movieInv (update_overdue_statuses s today).2 := by
  intro k m hfind
  exact h k m hfind

/-- C3: from any initial database satisfying the movie invariant
(nonnegative stock, `is_available` iff stock positive), every state
reachable by any sequence of rent, return and promote operations still
satisfies it: rent writes `is_available = (new stock > 0)` after its
guarded decrement, return writes `is_available = TRUE` after an
increment that makes the stock positive. -/
theorem C3_stock_availability_invariant (init s : DBState) (h0 : movieInv init)
    (hreach : Reachable init s) : movieInv s := by
  induction hreach with
  | refl => exact h0
  | tail hsteps hstep ih =>
    cases hstep with
    | rent cid mid eid due today => exact movieInv_rent _ cid mid eid due today ih
    | ret rid eid today => exact movieInv_return _ rid eid today ih
    | promote today => exact movieInv_promote _ today ih

/-- C3, witness: the invariant holds in the state reached by one
concrete rent from `exInitState`. -/
theorem C3_witness : movieInv (rent_movie exInitState 1 1 5 7 0).2 :=
  C3_stock_availability_invariant exInitState _
    (by
      intro k m h
      have h' : findRow k [(1, exMovie)] = some m := h
      obtain ⟨-, hm⟩ := findRow_singleton h'
      subst hm
      exact ⟨by decide, by decide⟩)
    (Relation.ReflTransGen.single (Step.rent exInitState 1 1 5 7 0))

/-! ### Claim C4 -/

theorem length_filter_append_single {α : Type} (l : List α) (x : α) (P : α → Bool) :
    ((l ++ [x]).filter P).length
      = (l.filter P).length + (if P x then 1 else 0) := by
  rw [List.filter_append, List.length_append]
  cases hP : P x <;> simp [List.filter_cons, hP]

/-- `rent_movie` preserves well-formedness of the rentals table. -/
theorem rentalsWF_rent (s : DBState) (cid mid eid : Nat) (due today : Int)
    (h : RentalsWF s) : RentalsWF (rent_movie s cid mid eid due today).2 := by
  rcases rent_movie_cases s cid mid eid due today with
    ⟨-, -, heq⟩ | ⟨c, m, -, -, -, -, -, -, heq⟩
  · rw [heq]
    exact h
  · rw [heq]
    obtain ⟨hnd, hlt⟩ := h
    constructor
    · show ((s.rentals ++ [(s.next_rental_id,
        mkRental cid mid eid today due (m.rental_rate * (due - today)))]).map
          Prod.fst).Nodup
      rw [List.map_append]
      refine List.Nodup.append hnd (List.nodup_singleton _) ?_
      intro a ha hb
      simp only [List.map_cons, List.map_nil, List.mem_singleton] at hb
      subst hb
      exact absurd (hlt _ ha) (lt_irrefl _)
    · intro k hk
      show k < s.next_rental_id + 1
      have hk' : k ∈ (s.rentals ++ [(s.next_rental_id,
          mkRental cid mid eid today due (m.rental_rate * (due - today)))]).map
            Prod.fst := hk
      rw [List.map_append, List.mem_append] at hk'
      rcases hk' with hk' | hk'
      · exact Nat.lt_succ_of_lt (hlt k hk')
      · simp only [List.map_cons, List.map_nil, List.mem_singleton] at hk'
        subst hk'
        exact Nat.lt_succ_self _

/-- `return_movie` preserves well-formedness of the rentals table. -/
theorem rentalsWF_return (s : DBState) (rid eid : Nat) (today : Int)
    (h : RentalsWF s) : RentalsWF (return_movie s rid eid today).2 := by
  rcases return_movie_cases s rid eid today with ⟨-, heq⟩ | ⟨r, m, hr, hact, hm, heq⟩
  · rw [heq]
    exact h
  · rw [heq]
    obtain ⟨hnd, hlt⟩ := h
    constructor
    · show ((updRow rid
        { r with actual_return_date := some today,
                 late_fee := max 0 (today - r.due_date) * late_fee_per_day,
                 rental_status := .returned } s.rentals).map Prod.fst).Nodup
      rw [updRow_keys]
      exact hnd
    · intro k hk
      show k < s.next_rental_id
      have hk' : k ∈ (updRow rid
          { r with actual_return_date := some today,
                   late_fee := max 0 (today - r.due_date) * late_fee_per_day,
                   rental_status := .returned } s.rentals).map Prod.fst := hk
      rw [updRow_keys] at hk'
      exact hlt k hk'

/-- Promotion keeps every rental's primary key. -/
theorem promote_keys (s : DBState) (today : Int) :
    (update_overdue_statuses s today).2.rentals.map Prod.fst
      = s.rentals.map Prod.fst := by
  show (s.rentals.map fun p =>
      if isOverdueCandidate today p then
        (p.1, { p.2 with rental_status := RentalStatus.overdue }) else p).map
        Prod.fst
    = s.rentals.map Prod.fst
  rw [List.map_map]
  exact List.map_congr_left fun p hp => by
    by_cases hc : isOverdueCandidate today p = true
    · simp [Function.comp, hc]
    · simp [Function.comp, hc]

/-- `update_overdue_statuses` preserves well-formedness of the rentals
table. -/
theorem rentalsWF_promote (s : DBState) (today : Int)
    (h : RentalsWF s) : RentalsWF (update_overdue_statuses s today).2 := by
  obtain ⟨hnd, hlt⟩ := h
  constructor
  · rw [promote_keys]
    exact hnd
  · intro k hk
    rw [promote_keys] at hk
    exact hlt k hk

/-- Promotion does not change which rentals are outstanding. -/
theorem outstanding_promote (s : DBState) (today : Int) (k : Nat) :
    outstanding (update_overdue_statuses s today).2 k = outstanding s k := by
  show ((s.rentals.map fun p =>
      if isOverdueCandidate today p then
        (p.1, { p.2 with rental_status := RentalStatus.overdue }) else p).filter
      (outstandingP k)).length
    = (s.rentals.filter (outstandingP k)).length
  refine length_filter_map_congr fun p hp => ?_
  by_cases hc : isOverdueCandidate today p = true
  · rw [if_pos hc]
    have hc' := of_decide_eq_true hc
    simp [outstandingP, hc'.1]
  · rw [if_neg hc]

/-- `rent_movie` preserves the stock accounting invariant. -/
theorem stockInv_rent (s : DBState) (cid mid eid : Nat) (due today : Int)
    (h : stockInv s) : stockInv (rent_movie s cid mid eid due today).2 := by
  rcases rent_movie_cases s cid mid eid due today with
    ⟨-, -, heq⟩ | ⟨c, m, hc, hca, hm, hav, hst, hd, heq⟩
  · rw [heq]
    exact h
  · rw [heq]
    intro k m₂ hfind
    have hfind' : findRow k (updRow mid
        { m with stock_quantity := m.stock_quantity - 1,
                 is_available := decide (0 < m.stock_quantity - 1) } s.movies)
        = some m₂ := hfind
    have hout : outstanding
        { s with
          rentals := s.rentals ++ [(s.next_rental_id,
            mkRental cid mid eid today due (m.rental_rate * (due - today)))],
          movies := updRow mid
            { m with stock_quantity := m.stock_quantity - 1,
                     is_available := decide (0 < m.stock_quantity - 1) } s.movies,
          next_rental_id := s.next_rental_id + 1 } k
        = outstanding s k + (if outstandingP k (s.next_rental_id,
            mkRental cid mid eid today due (m.rental_rate * (due - today)))
            then 1 else 0) :=
      length_filter_append_single s.rentals _ (outstandingP k)
    by_cases hk : k = mid
    · subst hk
      rw [findRow_updRow_self, hm, Option.map_some'] at hfind'
      cases hfind'
      have hP : outstandingP k (s.next_rental_id,
          mkRental cid k eid today due (m.rental_rate * (due - today))) = true := by
        simp [outstandingP, mkRental]
      rw [hP, if_pos rfl] at hout
      have hbase := h k m hm
      dsimp only
      rw [hout]
      push_cast
      omega
    · rw [findRow_updRow_ne _ _ hk] at hfind'
      have hP : outstandingP k (s.next_rental_id,
          mkRental cid mid eid today due (m.rental_rate * (due - today))) = false := by
        simp [outstandingP, mkRental]
        intro hmk
        exact absurd hmk.symm hk
      rw [hP, if_neg (by simp)] at hout
      have hbase := h k m₂ hfind'
      dsimp only
      rw [hout]
      push_cast
      omega

/-- `return_movie` preserves the stock accounting invariant. -/
theorem stockInv_return (s : DBState) (rid eid : Nat) (today : Int)
    (h : stockInv s) (hwf : RentalsWF s) :
    stockInv (return_movie s rid eid today).2 := by
  rcases return_movie_cases s rid eid today with ⟨-, heq⟩ | ⟨r, m, hr, hact, hm, heq⟩
  · rw [heq]
    exact h
  · rw [heq]
    intro k m₂ hfind
    have hfind' : findRow k (updRow r.movie_id
        { m with stock_quantity := m.stock_quantity + 1, is_available := true }
        s.movies) = some m₂ := hfind
    have hcnt := length_filter_updRow
      { r with actual_return_date := some today,
               late_fee := max 0 (today - r.due_date) * late_fee_per_day,
               rental_status := .returned }
      (outstandingP k) hwf.1 hr
    have houtdef : outstanding
        { s with
          rentals := updRow rid
            { r with actual_return_date := some today,
                     late_fee := max 0 (today - r.due_date) * late_fee_per_day,
                     rental_status := .returned } s.rentals,
          returns := s.returns ++
            [{ rental_id := rid, return_date := today,
               late_days := max 0 (today - r.due_date),
               late_fee := max 0 (today - r.due_date) * late_fee_per_day,
               total_paid := r.total_charge
                 + max 0 (today - r.due_date) * late_fee_per_day,
               processed_by := eid }],
          movies := updRow r.movie_id
            { m with stock_quantity := m.stock_quantity + 1,
                     is_available := true } s.movies } k
        = ((updRow rid
            { r with actual_return_date := some today,
                     late_fee := max 0 (today - r.due_date) * late_fee_per_day,
                     rental_status := .returned } s.rentals).filter
            (outstandingP k)).length := rfl
    by_cases hk : k = r.movie_id
    · subst hk
      rw [findRow_updRow_self, hm, Option.map_some'] at hfind'
      cases hfind'
      have hPr : outstandingP r.movie_id (rid, r) = true := by
        simp [outstandingP, hact]
      have hPr' : outstandingP r.movie_id (rid,
          { r with actual_return_date := some today,
                   late_fee := max 0 (today - r.due_date) * late_fee_per_day,
                   rental_status := .returned }) = false := by
        simp [outstandingP]
      rw [hPr, if_pos rfl, hPr', if_neg (by simp)] at hcnt
      have hbase := h r.movie_id m hm
      dsimp only
      rw [houtdef]
      unfold outstanding at hbase
      omega
    · rw [findRow_updRow_ne _ _ hk] at hfind'
      have hPr : outstandingP k (rid, r) = false := by
        simp [outstandingP]
        intro hmk
        exact absurd hmk.symm hk
      have hPr' : outstandingP k (rid,
          { r with actual_return_date := some today,
                   late_fee := max 0 (today - r.due_date) * late_fee_per_day,
                   rental_status := .returned }) = false := by
        simp [outstandingP]
      rw [hPr, if_neg (by simp), hPr', if_neg (by simp)] at hcnt
      have hbase := h k m₂ hfind'
      dsimp only
      rw [houtdef]
      unfold outstanding at hbase
      omega

/-- `update_overdue_statuses` preserves the stock accounting
invariant. -/
theorem stockInv_promote (s : DBState) (today : Int) (h : stockInv s) :
    stockInv (update_overdue_statuses s today).2 := by
  intro k m hfind
  rw [outstanding_promote]
  exact h k m hfind

/-- Every step preserves the stock accounting invariant together with
rentals-table well-formedness. -/
theorem stockInv_step (s s' : DBState) (hstep : Step s s')
    (h : stockInv s ∧ RentalsWF s) : stockInv s' ∧ RentalsWF s' := by
  cases hstep with
  | rent cid mid eid due today =>
    exact ⟨stockInv_rent _ cid mid eid due today h.1,
      rentalsWF_rent _ cid mid eid due today h.2⟩
  | ret rid eid today =>
    exact ⟨stockInv_return _ rid eid today h.1 h.2,
      rentalsWF_return _ rid eid today h.2⟩
  | promote today =>
    exact ⟨stockInv_promote _ today h.1, rentalsWF_promote _ today h.2⟩

/-- C4: starting from a database with no rentals and every movie's stock
at most its total_copies (as `add_movie` creates movies, with
stock_quantity = total_copies), every reachable state keeps
stock_quantity ≤ total_copies for every movie; in particular the
un-capped increment of returnRental never pushes the stock past
total_copies, because each successful return consumes an outstanding
active rental created by a matching guarded decrement. -/
theorem C4_stock_le_total (init s : DBState)
    (h0 : init.rentals = [] ∧
      ∀ k m, findRow k init.movies = some m →
        m.stock_quantity ≤ m.total_copies)
    (hreach : Reachable init s) :
    ∀ k m, findRow k s.movies = some m →
      m.stock_quantity ≤ m.total_copies := by
  have hinit : stockInv init ∧ RentalsWF init := by
    refine ⟨?_, ?_, ?_⟩
    · intro k m hm
      have hz : outstanding init k = 0 := by
        unfold outstanding
        rw [h0.1]
        rfl
      rw [hz]
      simpa using h0.2 k m hm
    · rw [h0.1]
      exact List.nodup_nil
    · intro k hk
      rw [h0.1] at hk
      simp at hk
  have hfin : stockInv s ∧ RentalsWF s := by
    induction hreach with
    | refl => exact hinit
    | tail hsteps hstep ih => exact stockInv_step _ _ hstep ih
  intro k m hm
  have h1 := hfin.1 k m hm
  have h2 : (0 : Int) ≤ (outstanding s k : Int) := Int.natCast_nonneg _
  omega

/-- C4, witness: after one concrete rent from `exInitState` every movie
still has stock at most total_copies. -/
theorem C4_witness :
    exMovieOneLeft.stock_quantity ≤ exMovieOneLeft.total_copies :=
  C4_stock_le_total exInitState _
    ⟨rfl, by
      intro k m h
      have h' : findRow k [(1, exMovie)] = some m := h
      obtain ⟨-, hm⟩ := findRow_singleton h'
      subst hm
      decide⟩
    (Relation.ReflTransGen.single (Step.rent exInitState 1 1 5 7 0))
    1 exMovieOneLeft (by decide)

/-! ### Claim C7 -/

/-- The success equation of `rent_movie` when all preconditions hold. -/
theorem rent_movie_success_eq (s : DBState) (cid mid eid : Nat) (due today : Int)
    (c : Customer) (m : Movie) (hc : findRow cid s.customers = some c)
    (hca : c.is_active = true) (hm : findRow mid s.movies = some m)
    (hav : m.is_available = true) (hst : 0 < m.stock_quantity)
    (hd : 0 < due - today) :
    rent_movie s cid mid eid due today
      = (.ok s.next_rental_id (m.rental_rate * (due - today)),
         { s with
            rentals := s.rentals ++ [(s.next_rental_id,
              mkRental cid mid eid today due (m.rental_rate * (due - today)))],
            movies := updRow mid
              { m with stock_quantity := m.stock_quantity - 1,
                       is_available := decide (0 < m.stock_quantity - 1) } s.movies,
            next_rental_id := s.next_rental_id + 1 }) := by
  rcases rent_movie_cases s cid mid eid due today with
    ⟨hneg, -, -⟩ | ⟨c', m', hc', hca', hm', -, -, -, heq⟩
  · exact absurd ⟨⟨c, hc, hca⟩, ⟨m, hm, hav, hst⟩, hd⟩ hneg
  · rw [hm] at hm'
    cases hm'
    exact heq

/-- The success equation of `return_movie` when the active rental and
its movie row are found. -/
theorem return_movie_success_eq (s : DBState) (rid eid : Nat) (today : Int)
    (r : Rental) (m : Movie) (hr : findRow rid s.rentals = some r)
    (hact : r.rental_status = .active)
    (hm : findRow r.movie_id s.movies = some m) :
    return_movie s rid eid today
      = (.ok { rental_id := rid, movie_title := m.title, return_date := today,
               late_days := max 0 (today - r.due_date),
               late_fee := max 0 (today - r.due_date) * late_fee_per_day,
               original_charge := r.total_charge,
               total_paid := r.total_charge
                 + max 0 (today - r.due_date) * late_fee_per_day },
         { s with
            rentals := updRow rid
              { r with actual_return_date := some today,
                       late_fee := max 0 (today - r.due_date) * late_fee_per_day,
                       rental_status := .returned } s.rentals,
            returns := s.returns ++
              [{ rental_id := rid, return_date := today,
                 late_days := max 0 (today - r.due_date),
                 late_fee := max 0 (today - r.due_date) * late_fee_per_day,
                 total_paid := r.total_charge
                   + max 0 (today - r.due_date) * late_fee_per_day,
                 processed_by := eid }],
            movies := updRow r.movie_id
              { m with stock_quantity := m.stock_quantity + 1,
                       is_available := true } s.movies }) := by
  rcases return_movie_cases s rid eid today with
    ⟨hneg, -⟩ | ⟨r₂, m₂, hr₂, hact₂, hm₂, heq⟩
  · refine absurd ⟨r, hr, hact, ?_⟩ hneg
    rw [hm]
    rfl
  · rw [hr] at hr₂
    cases hr₂
    rw [hm] at hm₂
    cases hm₂
    exact heq

/-- One rent-then-return pair under `pairPre`: both calls succeed, the
movie row is restored exactly, the customers table is untouched, and
the preconditions hold again afterwards. -/
theorem rentReturnPair_spec (cid mid eid : Nat) (due today : Int) (s : DBState)
    (h : pairPre cid mid due today s) :
    (rent_movie s cid mid eid due today).1.isOk = true ∧
    (return_movie (rent_movie s cid mid eid due today).2
      s.next_rental_id eid today).1.isOk = true ∧
    findRow mid (rentReturnPair cid mid eid due today s).movies
      = findRow mid s.movies ∧
    (rentReturnPair cid mid eid due today s).customers = s.customers ∧
    pairPre cid mid due today (rentReturnPair cid mid eid due today s) := by
  obtain ⟨⟨c, hc, hca⟩, ⟨m, hm, hav, hst⟩, hd, hwf⟩ := h
  have h1 := rent_movie_success_eq s cid mid eid due today c m hc hca hm hav hst hd
  have hnone : findRow s.next_rental_id s.rentals = none :=
    findRow_eq_none_of_not_mem fun hmem => absurd (hwf.2 _ hmem) (lt_irrefl _)
  have hfr : findRow s.next_rental_id (s.rentals ++ [(s.next_rental_id,
      mkRental cid mid eid today due (m.rental_rate * (due - today)))])
      = some (mkRental cid mid eid today due (m.rental_rate * (due - today))) := by
    rw [findRow_append_right hnone, findRow_cons, if_pos rfl]
  have hms : findRow mid (updRow mid
      { m with stock_quantity := m.stock_quantity - 1,
               is_available := decide (0 < m.stock_quantity - 1) } s.movies)
      = some { m with stock_quantity := m.stock_quantity - 1,
                      is_available := decide (0 < m.stock_quantity - 1) } := by
    rw [findRow_updRow_self, hm, Option.map_some']
  have h2 := return_movie_success_eq
    { s with
      rentals := s.rentals ++ [(s.next_rental_id,
        mkRental cid mid eid today due (m.rental_rate * (due - today)))],
      movies := updRow mid
        { m with stock_quantity := m.stock_quantity - 1,
                 is_available := decide (0 < m.stock_quantity - 1) } s.movies,
      next_rental_id := s.next_rental_id + 1 }
    s.next_rental_id eid today
    (mkRental cid mid eid today due (m.rental_rate * (due - today)))
    { m with stock_quantity := m.stock_quantity - 1,
             is_available := decide (0 < m.stock_quantity - 1) }
    hfr rfl hms
  have hc3 : findRow mid (rentReturnPair cid mid eid due today s).movies
      = findRow mid s.movies := by
    show findRow mid (return_movie (rent_movie s cid mid eid due today).2
      s.next_rental_id eid today).2.movies = findRow mid s.movies
    rw [h1]
    dsimp only
    rw [h2]
    dsimp only [mkRental]
    rw [findRow_updRow_self, findRow_updRow_self, hm, Option.map_some',
      Option.map_some']
    congr 1
    have hsq : m.stock_quantity - 1 + 1 = m.stock_quantity := by omega
    rw [hsq, ← hav]
  have hc4 : (rentReturnPair cid mid eid due today s).customers = s.customers := by
    show (return_movie (rent_movie s cid mid eid due today).2
      s.next_rental_id eid today).2.customers = s.customers
    rw [h1]
    dsimp only
    rw [h2]
  have hwf2 : RentalsWF (rentReturnPair cid mid eid due today s) :=
    rentalsWF_return _ s.next_rental_id eid today
      (rentalsWF_rent s cid mid eid due today hwf)
  refine ⟨?_, ?_, hc3, hc4, ⟨c, ?_, hca⟩, ⟨m, ?_, hav, hst⟩, hd, hwf2⟩
  · rw [h1]
    rfl
  · rw [h1]
    dsimp only
    rw [h2]
    rfl
  · rw [hc4]
    exact hc
  · rw [hc3]
    exact hm

/-- Iterated pairs preserve the movie row and the preconditions. -/
theorem rentReturnIter_spec (cid mid eid : Nat) (due today : Int) (n : Nat) :
    ∀ s : DBState, pairPre cid mid due today s →
      findRow mid (rentReturnIter cid mid eid due today n s).movies
        = findRow mid s.movies ∧
      pairPre cid mid due today (rentReturnIter cid mid eid due today n s) := by
  induction n with
  | zero =>
    intro s h
    exact ⟨rfl, h⟩
  | succ k ih =>
    intro s h
    have hp := rentReturnPair_spec cid mid eid due today s h
    have hrec := ih (rentReturnPair cid mid eid due today s) hp.2.2.2.2
    refine ⟨?_, ?_⟩
    · show findRow mid (rentReturnIter cid mid eid due today k
        (rentReturnPair cid mid eid due today s)).movies = findRow mid s.movies
      rw [hrec.1, hp.2.2.1]
    · exact hrec.2

/-- C7: a successful rent decrements the rented movie's stock_quantity
by exactly 1; a successful return increments the returned movie's
stock_quantity by exactly 1; and after any number of successful
rent/return pairs on the same movie (guaranteed to succeed under
`pairPre`) the movie row, in particular its stock_quantity, equals its
initial value. -/
theorem C7_rent_return_stock (s : DBState) (cid mid eid : Nat)
    (due today : Int) :
    ((rent_movie s cid mid eid due today).1.isOk = true →
      ∃ m, findRow mid s.movies = some m ∧
        (findRow mid (rent_movie s cid mid eid due today).2.movies).map
          Movie.stock_quantity = some (m.stock_quantity - 1)) ∧
    (∀ rid, (return_movie s rid eid today).1.isOk = true →
      ∃ r m, findRow rid s.rentals = some r ∧
        findRow r.movie_id s.movies = some m ∧
        (findRow r.movie_id (return_movie s rid eid today).2.movies).map
          Movie.stock_quantity = some (m.stock_quantity + 1)) ∧
    (pairPre cid mid due today s → ∀ n,
      findRow mid (rentReturnIter cid mid eid due today n s).movies
        = findRow mid s.movies) := by
  refine ⟨?_, ?_, ?_⟩
  · intro hok
    rcases rent_movie_cases s cid mid eid due today with
      ⟨-, hfail, -⟩ | ⟨c, m, hc, hca, hm, hav, hst, hd, heq⟩
    · rw [hok] at hfail
      exact Bool.noConfusion hfail
    · refine ⟨m, hm, ?_⟩
      rw [heq]
      dsimp only
      rw [findRow_updRow_self, hm, Option.map_some', Option.map_some']
  · intro rid hok
    rcases return_movie_cases s rid eid today with
      ⟨-, heq⟩ | ⟨r, m, hr, hact, hm, heq⟩
    · rw [heq] at hok
      exact Bool.noConfusion hok
    · refine ⟨r, m, hr, hm, ?_⟩
      rw [heq]
      dsimp only
      rw [findRow_updRow_self, hm, Option.map_some', Option.map_some']
  · intro hpre n
    exact (rentReturnIter_spec cid mid eid due today n s hpre).1

/-- C7, witness: three rent/return pairs on `exInitState` leave movie 1
with its initial row (stock 2). -/
theorem C7_witness :
    findRow 1 (rentReturnIter 1 1 5 7 0 3 exInitState).movies
      = findRow 1 exInitState.movies :=
  (C7_rent_return_stock exInitState 1 1 5 7 0).2.2
    ⟨⟨{ is_active := true }, rfl, rfl⟩, ⟨exMovie, rfl, rfl, by decide⟩,
      by decide, by decide, by simp [exInitState]⟩ 3

end MovieRental
